import Mathlib

/-
Verification development for the h02_to_mqtt TCP-to-MQTT bridge.

The source (src/main.py) is shallowly embedded here:
  * strings are `List Char` (Python `str`), byte chunks are `List Nat`;
  * `process_buffer` / `handle_request` model the frame reassembly loop,
    including the exact buffer-trimming expression `buffer = buffer[end + 1:]`
    executed inside the loop over yields of `process_buffer(buffer)` (the
    yielded `end` indices refer to the buffer as it was when `process_buffer`
    was called, while the slice is applied to the already-trimmed buffer);
  * `split_input` models `H02Payload.split_input` followed by pydantic field
    validation; Python `float`/`int` parsing is modelled over `Rat` for the
    decimal-literal forms the protocol carries (binary floating point is
    idealized as exact decimal arithmetic: the 6-decimal roundings performed
    by the code are never within double-precision error of a tie on such
    inputs, and Python's banker's rounding differs from `round` only at
    exact ties);
  * `handle` models `TCPHandler.handle`: it drives `handle_request`, feeds
    every yielded message to `process_payload`, catches `BadRequest` only,
    and lets any decode exception propagate (ending the session);
  * `mqtt_model_dump` models pydantic's `model_dump_json` on `MQTTPayload`:
    leading-underscore attributes are private and are not serialized, and
    `datetime` fields without a dedicated `field_serializer` are rendered
    as ISO-8601 strings; the naive device timestamp is converted to epoch
    seconds via `datetime.timestamp()`, which interprets it in the server's
    local timezone, modelled by an explicit `tzOffset` parameter.
-/

namespace H02ToMqtt

/-- Index of the first '#' in the list, if any (models `str.find("#", cursor)`
relative to the scan position). -/
def idxOfHash : List Char → Option Nat
  | [] => none
  | c :: rest => if c = '#' then some 0 else (idxOfHash rest).map (· + 1)

/-- Fuelled scanner behind `process_buffer`.  At each step: the byte at the
cursor must be '*' (else `BadRequest`, the error flag); the body runs up to
the next '#' (if none, scanning stops and the tail is retained); each yield
carries the absolute index of the consumed '#'.  Fuel is the buffer length,
which bounds the number of steps; the fuel-exhausted branch is unreachable
when the fuel is at least the list length. -/
def pbAuxF : Nat → List Char → Nat → List (List Char × Nat) × Bool
  | _, [], _ => ([], false)
  | 0, _ :: _, _ => ([], false)
  | f + 1, c :: rest, off =>
    if c = '*' then
      match idxOfHash rest with
      | none => ([], false)
      | some e =>
        let pr := pbAuxF f (rest.drop (e + 1)) (off + e + 2)
        ((rest.take e, off + e + 1) :: pr.1, pr.2)
    else ([], true)

/-- `process_buffer` scanning a buffer whose first character sits at absolute
offset `off` of the original buffer. -/
def process_buffer_from (buf : List Char) (off : Nat) : List (List Char × Nat) × Bool :=
  pbAuxF buf.length buf off

/-- Models `process_buffer` (src/main.py lines 70-79): the list of
`(message, end)` pairs the generator yields, and whether it finally raises
`BadRequest` (unexpected leading byte). -/
def process_buffer (buf : List Char) : List (List Char × Nat) × Bool :=
  process_buffer_from buf 0

/-- One pass of the `handle_request` loop body over a buffer: the messages
yielded, the buffer left behind by the repeated `buffer = buffer[end + 1:]`
trimming (each slice is applied to the buffer as already trimmed by the
previous iteration, while `end` indexes the buffer `process_buffer` was
called with), and the `BadRequest` flag. -/
def feed (buffer : List Char) : List (List Char) × List Char × Bool :=
  let pr := process_buffer buffer
  (pr.1.map Prod.fst, pr.1.foldl (fun b me => b.drop (me.2 + 1)) buffer, pr.2)

/-- Recursion of `handle_request` over the successive chunks returned by
`request.recv`. -/
def handle_requestGo : List (List Char) → List Char → List (List Char) × List Char × Bool
  | [], buf => ([], buf, false)
  | ch :: rest, buf =>
    let f := feed (buf ++ ch)
    if f.2.2 then (f.1, f.2.1, true)
    else
      let r := handle_requestGo rest f.2.1
      (f.1 ++ r.1, r.2.1, r.2.2)

/-- Models `handle_request` (src/main.py lines 58-67) on an already text-decoded
chunk sequence: all messages yielded across the chunks, the final retained
buffer, and whether a framing `BadRequest` was raised. -/
def handle_request (chunks : List (List Char)) : List (List Char) × List Char × Bool :=
  handle_requestGo chunks []

/-- Concatenation of well-formed frames on the wire: each message wrapped as
`*message#`. -/
def wireOf : List (List Char) → List Char
  | [] => []
  | m :: ms => '*' :: (m ++ '#' :: wireOf ms)

/-- UTF-8 continuation byte. -/
def isCont (b : Nat) : Bool := 128 ≤ b && b ≤ 191

/-- Fuelled strict UTF-8 decoder, modelling Python's `bytes.decode()`:
rejects truncated sequences, stray continuation bytes, overlong encodings,
surrogates and code points above U+10FFFF. -/
def utf8DecodeF : Nat → List Nat → Option (List Char)
  | _, [] => some []
  | 0, _ :: _ => none
  | f + 1, b :: rest =>
    if b < 128 then (utf8DecodeF f rest).map (fun cs => Char.ofNat b :: cs)
    else if b < 194 then none
    else if b < 224 then
      match rest with
      | b2 :: rest2 =>
        if isCont b2 then
          (utf8DecodeF f rest2).map (fun cs => Char.ofNat ((b - 192) * 64 + (b2 - 128)) :: cs)
        else none
      | [] => none
    else if b < 240 then
      match rest with
      | b2 :: b3 :: rest3 =>
        if (if b = 224 then 160 ≤ b2 && b2 ≤ 191
            else if b = 237 then 128 ≤ b2 && b2 ≤ 159
            else isCont b2) && isCont b3 then
          (utf8DecodeF f rest3).map
            (fun cs => Char.ofNat ((b - 224) * 4096 + (b2 - 128) * 64 + (b3 - 128)) :: cs)
        else none
      | _ => none
    else if b < 245 then
      match rest with
      | b2 :: b3 :: b4 :: rest4 =>
        if (if b = 240 then 144 ≤ b2 && b2 ≤ 191
            else if b = 244 then 128 ≤ b2 && b2 ≤ 143
            else isCont b2) && isCont b3 && isCont b4 then
          (utf8DecodeF f rest4).map
            (fun cs => Char.ofNat ((b - 240) * 262144 + (b2 - 128) * 4096
              + (b3 - 128) * 64 + (b4 - 128)) :: cs)
        else none
      | _ => none
    else none

/-- Models `chunk.decode()` on one received byte chunk. -/
def utf8Decode (l : List Nat) : Option (List Char) := utf8DecodeF l.length l

/-- The two ways `handle_request` raises `BadRequest`: a chunk whose bytes do
not decode (src/main.py line 64), or a framing violation inside
`process_buffer` (line 74). -/
inductive BadReq where
  | encoding
  | framing
deriving DecidableEq

/-- Recursion of the byte-level `handle_request` loop. -/
def handle_request_bytesGo :
    List (List Nat) → List Char → List (List Char) × List Char × Option BadReq
  | [], buf => ([], buf, none)
  | ch :: rest, buf =>
    match utf8Decode ch with
    | none => ([], buf, some BadReq.encoding)
    | some s =>
      let f := feed (buf ++ s)
      if f.2.2 then (f.1, f.2.1, some BadReq.framing)
      else
        let r := handle_request_bytesGo rest f.2.1
        (f.1 ++ r.1, r.2.1, r.2.2)

/-- Models `handle_request` on the raw byte chunks delivered by the socket:
each chunk is text-decoded in isolation before being appended to the buffer. -/
def handle_request_bytes (chunks : List (List Nat)) :
    List (List Char) × List Char × Option BadReq :=
  handle_request_bytesGo chunks []

/-- Value of a digit string (used only on strings checked to be all digits). -/
def digitsVal (l : List Char) : Nat :=
  l.foldl (fun acc c => acc * 10 + (c.toNat - 48)) 0

/-- Non-empty all-digit string, as a number. -/
def parseDigits (l : List Char) : Option Nat :=
  if l ≠ [] && l.all Char.isDigit then some (digitsVal l) else none

/-- Models Python `int(s)` on the sign-and-digits decimal forms the protocol
carries. -/
def int_of_string : List Char → Option Int
  | '+' :: rest => (parseDigits rest).map Int.ofNat
  | '-' :: rest => (parseDigits rest).map (fun n => -(n : Int))
  | l => (parseDigits l).map Int.ofNat

/-- Exact rational addition computed on numerator and denominator.
`Rat.add`, `Rat.mul` and `Rat.div` are `@[irreducible]`, which blocks kernel
evaluation; `qadd`, `qmul` and `qdiv` are proved equal to them in `qadd_eq`,
`qmul_eq` and `qdiv_eq` below. -/
def qadd (a b : Rat) : Rat :=
  Rat.divInt (a.num * b.den + b.num * a.den) (a.den * b.den)

/-- Exact rational multiplication, see `qadd`. -/
def qmul (a b : Rat) : Rat := Rat.divInt (a.num * b.num) (a.den * b.den)

/-- Exact rational division, see `qadd`. -/
def qdiv (a b : Rat) : Rat := Rat.divInt (a.num * b.den) (a.den * b.num)

/-- Unsigned part of a Python `float(s)` decimal literal: digits with an
optional single decimal point, at least one digit overall. -/
def floatMag (l : List Char) : Option Rat :=
  let ip := l.takeWhile (fun c => c ≠ '.')
  match l.dropWhile (fun c => c ≠ '.') with
  | [] => (parseDigits ip).map (fun n => (n : Rat))
  | _ :: fp =>
    if ip.isEmpty && fp.isEmpty then none
    else if ip.all Char.isDigit && fp.all Char.isDigit then
      some (qadd (digitsVal ip : Rat)
        (qdiv (digitsVal fp : Rat) ((10 ^ fp.length : Nat) : Rat)))
    else none

/-- Models Python `float(s)` on the decimal-literal forms the protocol
carries (no exponent, no inf/nan, no surrounding whitespace). -/
def float_of_string : List Char → Option Rat
  | '+' :: rest => floatMag rest
  | '-' :: rest => (floatMag rest).map Neg.neg
  | l => floatMag l

/-- The exceptions `H02Payload.model_validate` lets escape (none of them is
caught by `TCPHandler.handle`, which catches `BadRequest` only): an
out-of-range access `parts[i]`, a failed `int`/`float` conversion (wrapped by
pydantic into a `ValidationError`), or a failed `datetime.strptime`. -/
inductive DecodeErr where
  | indexError (i : Nat)
  | valueError (s : List Char)
  | dateError (s : List Char)
deriving DecidableEq

instance {ε α : Type} [DecidableEq ε] [DecidableEq α] : DecidableEq (Except ε α) :=
  fun x y =>
    match x, y with
    | Except.ok a, Except.ok b =>
      if h : a = b then Decidable.isTrue (by rw [h])
      else Decidable.isFalse (fun hc => h (by injection hc))
    | Except.error a, Except.error b =>
      if h : a = b then Decidable.isTrue (by rw [h])
      else Decidable.isFalse (fun hc => h (by injection hc))
    | Except.ok _, Except.error _ => Decidable.isFalse (fun hc => by injection hc)
    | Except.error _, Except.ok _ => Decidable.isFalse (fun hc => by injection hc)

/-- Rounding to the nearest integer, `⌊q + 1/2⌋` computed on the numerator
and denominator.  Python's `round` resolves exact halves to the even
neighbour; the two agree everywhere else, and the protocol's coordinate and
speed values never land on an exact half. -/
def py_round (q : Rat) : Int := Int.fdiv (2 * q.num + q.den) (2 * q.den)

/-- Python `round(x, 6)`. -/
def round6 (q : Rat) : Rat := Rat.divInt (py_round (qmul q 1000000)) 1000000

/-- Models `fix_coord` (src/main.py lines 92-93):
`round(int(value[:2]) + float(value[2:]) / 60, 6)`. -/
def fix_coord (value : List Char) : Except DecodeErr Rat :=
  match int_of_string (value.take 2) with
  | none => Except.error (DecodeErr.valueError (value.take 2))
  | some d =>
    match float_of_string (value.drop 2) with
    | none => Except.error (DecodeErr.valueError (value.drop 2))
    | some m => Except.ok (round6 (qadd (d : Rat) (qdiv m 60)))

/-- A naive Python `datetime` as produced by `strptime` (no timezone, no
microseconds). -/
structure PyDateTime where
  year : Nat
  month : Nat
  day : Nat
  hour : Nat
  minute : Nat
  second : Nat
deriving DecidableEq

def isLeap (y : Nat) : Bool := (y % 4 = 0 && y % 100 ≠ 0) || y % 400 = 0

def daysInMonth (y m : Nat) : Nat :=
  if m = 2 then (if isLeap y then 29 else 28)
  else if m = 4 || m = 6 || m = 9 || m = 11 then 30
  else 31

/-- Models `datetime.strptime(s, "%d%m%y%H%M%S")` on the canonical
fixed-width form (two digits per component, twelve digits total), the only
form the protocol's 6-digit date and 6-digit time fields produce; `%y` maps
00-68 to 2000-2068 and 69-99 to 1969-1999, and the resulting calendar date
and time-of-day must be valid. -/
def strptime_ddmmyyhhmmss (s : List Char) : Option PyDateTime :=
  if s.length = 12 && s.all Char.isDigit then
    let d := digitsVal (s.take 2)
    let mo := digitsVal ((s.drop 2).take 2)
    let y2 := digitsVal ((s.drop 4).take 2)
    let h := digitsVal ((s.drop 6).take 2)
    let mi := digitsVal ((s.drop 8).take 2)
    let se := digitsVal ((s.drop 10).take 2)
    let y := if y2 ≤ 68 then 2000 + y2 else 1900 + y2
    if 1 ≤ mo && mo ≤ 12 && 1 ≤ d && d ≤ daysInMonth y mo
        && h ≤ 23 && mi ≤ 59 && se ≤ 59 then
      some ⟨y, mo, d, h, mi, se⟩
    else none
  else none

/-- The validated `H02Payload` record (src/main.py lines 82-87). -/
structure H02Payload where
  device_id : List Char
  latitude : Rat
  longitude : Rat
  velocity : Rat
  timestamp : PyDateTime
deriving DecidableEq

/-- Python `parts[i]`: raises `IndexError` when out of range. -/
def getPart (parts : List (List Char)) (i : Nat) : Except DecodeErr (List Char) :=
  match parts[i]? with
  | some p => Except.ok p
  | none => Except.error (DecodeErr.indexError i)

/-- Python `data.split(",")`: always non-empty, keeps empty fields. -/
def splitComma : List Char → List (List Char)
  | [] => [[]]
  | ',' :: rest => [] :: splitComma rest
  | c :: rest =>
    match splitComma rest with
    | [] => [[c]]
    | g :: gs => (c :: g) :: gs

/-- Models `H02Payload.split_input` followed by pydantic field validation
(src/main.py lines 89-102), with Python's evaluation order of the dict
literal: `parts[1]`, `fix_coord(parts[5])`, `fix_coord(parts[7])`,
`round(float(parts[9]) * 1.852)`, `strptime(parts[11] + parts[3], ...)`. -/
def split_input (data : List Char) : Except DecodeErr H02Payload :=
  let parts := splitComma data
  match getPart parts 1 with
  | Except.error e => Except.error e
  | Except.ok device_id =>
    match getPart parts 5 with
    | Except.error e => Except.error e
    | Except.ok lat_s =>
      match fix_coord lat_s with
      | Except.error e => Except.error e
      | Except.ok latitude =>
        match getPart parts 7 with
        | Except.error e => Except.error e
        | Except.ok lon_s =>
          match fix_coord lon_s with
          | Except.error e => Except.error e
          | Except.ok longitude =>
            match getPart parts 9 with
            | Except.error e => Except.error e
            | Except.ok vel_s =>
              match float_of_string vel_s with
              | none => Except.error (DecodeErr.valueError vel_s)
              | some vel =>
                match getPart parts 11 with
                | Except.error e => Except.error e
                | Except.ok date_s =>
                  match getPart parts 3 with
                  | Except.error e => Except.error e
                  | Except.ok time_s =>
                    match strptime_ddmmyyhhmmss (date_s ++ time_s) with
                    | none => Except.error (DecodeErr.dateError (date_s ++ time_s))
                    | some ts =>
                      Except.ok ⟨device_id, latitude, longitude,
                        ((py_round (qmul vel (Rat.divInt 1852 1000)) : Int) : Rat), ts⟩

/-- Sequential decoding of the messages a chunk yielded, as driven by
`TCPHandler.handle`: each message is passed to `process_payload` as it is
yielded; the first decode exception stops the session, so the result is the
successfully decoded prefix together with the first error, if any. -/
def decodeSeq : List (List Char) → List H02Payload × Option DecodeErr
  | [] => ([], none)
  | m :: ms =>
    match split_input m with
    | Except.error e => ([], some e)
    | Except.ok r =>
      let pr := decodeSeq ms
      (r :: pr.1, pr.2)

/-- How a session ends: the client closes the connection (`done`), a
`BadRequest` is raised and caught by `TCPHandler.handle` (`badRequest`), or a
decode exception propagates uncaught out of `handle` (`decodeFatal`) and the
server framework closes the connection. -/
inductive SessionEnd where
  | done
  | badRequest
  | decodeFatal (e : DecodeErr)
deriving DecidableEq

/-- Recursion of `TCPHandler.handle` over the received chunks.  Within one
chunk, messages are decoded in yield order; a decode exception takes
precedence over a pending framing `BadRequest` because the generator is
never resumed after the exception. -/
def handleGo : List (List Char) → List Char → List H02Payload × SessionEnd
  | [], _ => ([], SessionEnd.done)
  | ch :: rest, buf =>
    let f := feed (buf ++ ch)
    let ds := decodeSeq f.1
    match ds.2 with
    | some e => (ds.1, SessionEnd.decodeFatal e)
    | none =>
      if f.2.2 then (ds.1, SessionEnd.badRequest)
      else
        let r := handleGo rest f.2.1
        (ds.1 ++ r.1, r.2)

/-- Models `TCPHandler.handle` (src/main.py lines 46-51) on a connection's
chunk sequence: the successfully decoded payloads handed on, and how the
session ends. -/
def handle (chunks : List (List Char)) : List H02Payload × SessionEnd :=
  handleGo chunks []

/-- A JSON value as serialized by `model_dump_json` (only the shapes this
model produces). -/
inductive Json where
  | jnum (q : Rat)
  | jint (z : Int)
  | jstr (s : List Char)
deriving DecidableEq

def pad2 (n : Nat) : List Char := [Nat.digitChar (n / 10 % 10), Nat.digitChar (n % 10)]

def pad4 (n : Nat) : List Char :=
  [Nat.digitChar (n / 1000 % 10), Nat.digitChar (n / 100 % 10),
   Nat.digitChar (n / 10 % 10), Nat.digitChar (n % 10)]

def pad6 (n : Nat) : List Char :=
  [Nat.digitChar (n / 100000 % 10), Nat.digitChar (n / 10000 % 10),
   Nat.digitChar (n / 1000 % 10), Nat.digitChar (n / 100 % 10),
   Nat.digitChar (n / 10 % 10), Nat.digitChar (n % 10)]

/-- Pydantic's ISO-8601 rendering of an aware UTC `datetime` (the shape
`datetime.now(UTC)` takes when dumped without a dedicated serializer):
`YYYY-MM-DDTHH:MM:SS[.ffffff]Z`. -/
def isoZ (t : PyDateTime) (micro : Nat) : List Char :=
  pad4 t.year ++ '-' :: pad2 t.month ++ '-' :: pad2 t.day ++ 'T' ::
    pad2 t.hour ++ ':' :: pad2 t.minute ++ ':' :: pad2 t.second ++
    (if micro = 0 then ['Z'] else '.' :: pad6 micro ++ ['Z'])

/-- Days from 1970-01-01 to the given Gregorian civil date (valid for any
year from 1 on; all the intermediate quantities are non-negative). -/
def days_from_civil (y m d : Nat) : Int :=
  let ya := if m ≤ 2 then y - 1 else y
  let era := ya / 400
  let yoe := ya % 400
  let mp := (m + 9) % 12
  let doy := (153 * mp + 2) / 5 + d - 1
  let doe := yoe * 365 + yoe / 4 - yoe / 100 + doy
  ((era * 146097 + doe : Nat) : Int) - 719468

/-- Epoch seconds of a `PyDateTime` read as a UTC instant. -/
def epoch_seconds (t : PyDateTime) : Int :=
  days_from_civil t.year t.month t.day * 86400
    + (t.hour * 3600 + t.minute * 60 + t.second : Nat)

/-- Models `MQTTPayload(...).model_dump_json()` (src/main.py lines 105-119)
as the ordered list of serialized fields.  Pydantic treats the
leading-underscore `_type` declaration as a private attribute, so it is not a
field and is absent from the dump; the `field_serializer` covers `tst` only,
turning the naive device timestamp into `int(timestamp.timestamp())`, which
interprets it in the server's local timezone (offset `tzOffset` seconds east
of UTC); `created_at` has no serializer and is rendered as an ISO-8601
string. -/
def mqtt_model_dump (lat lon vel : Rat) (tst created_at : PyDateTime)
    (createdMicro : Nat) (tzOffset : Int) : List (List Char × Json) :=
  [ (("lat").data, Json.jnum lat),
    (("lon").data, Json.jnum lon),
    (("acc").data, Json.jint 3),
    (("vel").data, Json.jnum vel),
    (("tst").data, Json.jint (epoch_seconds tst - tzOffset)),
    (("created_at").data, Json.jstr (isoZ created_at createdMicro)),
    (("conn").data, Json.jstr ("m").data),
    (("tid").data, Json.jstr ("CA").data),
    (("t").data, Json.jstr ("I").data) ]

/-- Models `process_payload` (src/main.py lines 122-132): validate the frame
into an `H02Payload`, build the `MQTTPayload` with `created_at =
datetime.now(UTC)`, and publish its JSON dump.  `now`/`nowMicro` stand for
the server receipt instant, `tzOffset` for the server's local UTC offset. -/
def process_payload (value : List Char) (now : PyDateTime) (nowMicro : Nat)
    (tzOffset : Int) : Except DecodeErr (List (List Char × Json)) :=
  match split_input value with
  | Except.error e => Except.error e
  | Except.ok p =>
    Except.ok (mqtt_model_dump p.latitude p.longitude p.velocity p.timestamp
      now nowMicro tzOffset)

/-- Body of the spec's example frame (between the delimiters). -/
def exFrame : List Char :=
  ("HQ,9170119247,V6,102523,A,5628.0960,N,8502.8648,E,0.00,284.00,291024,FFFFFBFF,250,2,7006,50421,897011102513827006FF,").data

/-- The record the code computes for the example frame. -/
def exampleReport : H02Payload :=
  ⟨("9170119247").data, Rat.divInt 56468267 1000000, Rat.divInt 85047747 1000000, 0,
    ⟨2024, 10, 29, 10, 25, 23⟩⟩

/-- The serialized record the code publishes for the example frame when the
server is in UTC and receives it at 2024-10-29 11:00:00Z sharp. -/
def exampleDump : List (List Char × Json) :=
  [ (("lat").data, Json.jnum (Rat.divInt 56468267 1000000)),
    (("lon").data, Json.jnum (Rat.divInt 85047747 1000000)),
    (("acc").data, Json.jint 3),
    (("vel").data, Json.jnum 0),
    (("tst").data, Json.jint 1730197523),
    (("created_at").data, Json.jstr ("2024-10-29T11:00:00Z").data),
    (("conn").data, Json.jstr ("m").data),
    (("tid").data, Json.jstr ("CA").data),
    (("t").data, Json.jstr ("I").data) ]

theorem qadd_eq (a b : Rat) : qadd a b = a + b := by
  unfold qadd
  rw [← Rat.num_divInt_den a, ← Rat.num_divInt_den b,
    Rat.divInt_add_divInt _ _ (by exact_mod_cast a.den_nz) (by exact_mod_cast b.den_nz)]
  simp [Rat.num_divInt_den]

theorem qmul_eq (a b : Rat) : qmul a b = a * b := by
  unfold qmul
  rw [← Rat.num_divInt_den a, ← Rat.num_divInt_den b, Rat.divInt_mul_divInt]
  · simp [Rat.num_divInt_den]
  · exact_mod_cast a.den_nz
  · exact_mod_cast b.den_nz

theorem qdiv_eq (a b : Rat) : qdiv a b = a / b := by
  unfold qdiv
  conv_rhs => rw [← Rat.num_divInt_den a, ← Rat.num_divInt_den b]
  rw [Rat.divInt_div_divInt]

theorem idxOfHash_eq_none (l : List Char) (h : '#' ∉ l) : idxOfHash l = none := by
  induction l with
  | nil => simp [idxOfHash]
  | cons c rest ih =>
    simp only [List.mem_cons, not_or] at h
    simp [idxOfHash, Ne.symm h.1, ih h.2]

theorem idxOfHash_append (p rest : List Char) (h : '#' ∉ p) :
    idxOfHash (p ++ '#' :: rest) = some p.length := by
  induction p with
  | nil => simp [idxOfHash]
  | cons c p' ih =>
    simp only [List.mem_cons, not_or] at h
    simp [idxOfHash, Ne.symm h.1, ih h.2]

theorem pbAuxF_fuel : ∀ (f₁ f₂ : Nat) (buf : List Char) (off : Nat),
    buf.length ≤ f₁ → buf.length ≤ f₂ → pbAuxF f₁ buf off = pbAuxF f₂ buf off := by
  intro f₁
  induction f₁ with
  | zero =>
    intro f₂ buf off h₁ _
    have hb : buf = [] := List.eq_nil_of_length_eq_zero (Nat.le_zero.mp h₁)
    subst hb
    cases f₂ <;> simp [pbAuxF]
  | succ f ih =>
    intro f₂ buf off h₁ h₂
    cases buf with
    | nil => cases f₂ <;> simp [pbAuxF]
    | cons c rest =>
      cases f₂ with
      | zero => simp at h₂
      | succ g =>
        simp only [List.length_cons, Nat.succ_le_succ_iff] at h₁ h₂
        simp only [pbAuxF]
        by_cases hc : c = '*'
        · subst hc
          cases hidx : idxOfHash rest with
          | none => simp [hidx]
          | some e =>
            have hih := ih g (rest.drop (e + 1)) (off + e + 2)
              (by rw [List.length_drop]; omega) (by rw [List.length_drop]; omega)
            simp [hidx, hih]
        · simp [hc]

theorem process_buffer_from_frame (p rest : List Char) (off : Nat) (h : '#' ∉ p) :
    process_buffer_from ('*' :: (p ++ '#' :: rest)) off =
      ((p, off + p.length + 1) :: (process_buffer_from rest (off + p.length + 2)).1,
        (process_buffer_from rest (off + p.length + 2)).2) := by
  have hlen : ('*' :: (p ++ '#' :: rest)).length = (p.length + rest.length + 1) + 1 := by
    simp only [List.length_cons, List.length_append]
    omega
  have htake : (p ++ '#' :: rest).take p.length = p := List.take_left p ('#' :: rest)
  have hdrop : (p ++ '#' :: rest).drop (p.length + 1) = rest := by
    have hassoc : p ++ '#' :: rest = (p ++ ['#']) ++ rest := by simp
    have hl : p.length + 1 = (p ++ ['#']).length := by simp
    rw [hassoc, hl, List.drop_left]
  have hfuel := pbAuxF_fuel (p.length + rest.length + 1) rest.length rest
    (off + p.length + 2) (by omega) (by omega)
  unfold process_buffer_from
  rw [hlen]
  simp [pbAuxF, idxOfHash_append p rest h, htake, hdrop, hfuel]

theorem process_buffer_wire (msgs : List (List Char)) :
    ∀ off : Nat, (∀ m ∈ msgs, '#' ∉ m) →
      (process_buffer_from (wireOf msgs) off).1.map Prod.fst = msgs ∧
        (process_buffer_from (wireOf msgs) off).2 = false := by
  induction msgs with
  | nil => intro off _; simp [wireOf, process_buffer_from, pbAuxF]
  | cons m ms ih =>
    intro off h
    have hm : '#' ∉ m := h m (List.mem_cons_self m ms)
    have hms : ∀ m' ∈ ms, '#' ∉ m' := fun m' hm' => h m' (List.mem_cons_of_mem m hm')
    rw [wireOf, process_buffer_from_frame m (wireOf ms) off hm]
    obtain ⟨h1, h2⟩ := ih (off + m.length + 2) hms
    simp [h1, h2]

theorem idxOfHash_replicate (n : Nat) : idxOfHash (List.replicate n 'a') = none := by
  apply idxOfHash_eq_none
  simp [List.mem_replicate]

theorem handle_request_nohash (n : Nat) :
    handle_request [('*' :: List.replicate n 'a')] =
      ([], '*' :: List.replicate n 'a', false) := by
  have hpb : process_buffer ('*' :: List.replicate n 'a') = ([], false) := by
    unfold process_buffer process_buffer_from
    have hlen : ('*' :: List.replicate n 'a').length = n + 1 := by simp
    rw [hlen]
    simp [pbAuxF, idxOfHash_replicate]
  simp [handle_request, handle_requestGo, feed, hpb]

theorem split_input_ok_length (s : List Char) (r : H02Payload)
    (h : split_input s = Except.ok r) : 12 ≤ (splitComma s).length := by
  by_contra hlt
  push_neg at hlt
  have hnone : (splitComma s)[11]? = none := List.getElem?_eq_none (by omega)
  have h11 : getPart (splitComma s) 11 = Except.error (DecodeErr.indexError 11) := by
    unfold getPart; rw [hnone]
  simp only [split_input, getPart, hnone] at h
  cases h1 : (splitComma s)[1]? with
  | none => simp only [h1] at h; simp at h
  | some device_id =>
  simp only [h1] at h
  cases h5 : (splitComma s)[5]? with
  | none => simp only [h5] at h; simp at h
  | some lat_s =>
  simp only [h5] at h
  cases hf5 : fix_coord lat_s with
  | error e => simp only [hf5] at h; simp at h
  | ok lat =>
  simp only [hf5] at h
  cases h7 : (splitComma s)[7]? with
  | none => simp only [h7] at h; simp at h
  | some lon_s =>
  simp only [h7] at h
  cases hf7 : fix_coord lon_s with
  | error e => simp only [hf7] at h; simp at h
  | ok lon =>
  simp only [hf7] at h
  cases h9 : (splitComma s)[9]? with
  | none => simp only [h9] at h; simp at h
  | some vel_s =>
  simp only [h9] at h
  cases hv : float_of_string vel_s with
  | none => simp only [hv] at h; simp at h
  | some vel =>
  simp only [hv] at h
  simp at h

/-- C1: the claim says frame reassembly is chunk-boundary independent.  It is
not: `handle_request` trims with `buffer = buffer[end + 1:]` where `end`
indexes the buffer `process_buffer` was called with but the slice is applied
to the already-trimmed buffer, so when one pass extracts two frames and
leaves a partial third, the retained tail is wrongly discarded.  Feeding
`*a#*b#*c#` whole yields frames a, b, c; feeding it as `*a#*b#*c` then `#`
yields only a, b and then raises `BadRequest` on the orphaned `#`. -/
theorem c1_chunk_boundary_dependence :
    handle_request [("*a#*b#*c#").data] =
      ([("a").data, ("b").data, ("c").data], [], false) ∧
    handle_request [("*a#*b#*c").data, ("#").data] =
      ([("a").data, ("b").data], ("#").data, true) ∧
    [("a").data, ("b").data, ("c").data] ≠ [("a").data, ("b").data] := by
  decide

/-- C2 counterexample: after a 10,101-character chunk with no `#`, the
retained buffer exceeds 10,000 characters with no frame extracted, yet no
error of any kind is signalled and the session keeps reading — there is no
`BufferOverflow` in the code. -/
theorem c2_overflow_counterexample :
    handle_request [('*' :: List.replicate 10100 'a')] =
      ([], '*' :: List.replicate 10100 'a', false) ∧
    ('*' :: List.replicate 10100 'a').length = 10101 ∧ 10000 < 10101 :=
  ⟨handle_request_nohash 10100,
    by rw [List.length_cons, List.length_replicate], by omega⟩

/-- C2 (amended): the reassembler imposes no size bound at all: a chunk of
`*` followed by `n` non-`#` filler characters is retained whole (length
`n + 1`, for every `n`), no frames are emitted, and no error is signalled,
so the per-connection buffer grows without bound. -/
theorem c2_no_buffer_bound (n : Nat) :
    handle_request [('*' :: List.replicate n 'a')] =
      ([], '*' :: List.replicate n 'a', false) ∧
    ('*' :: List.replicate n 'a').length = n + 1 :=
  ⟨handle_request_nohash n, by simp⟩

/-- C2 witness at n = 3. -/
theorem c2_no_buffer_bound_witness :
    handle_request [('*' :: List.replicate 3 'a')] =
      ([], '*' :: List.replicate 3 'a', false) :=
  (c2_no_buffer_bound 3).1

/-- C3 counterexample: on one connection, the frame `@` fails to decode
(`parts[1]` raises `IndexError`), and the session dies there: the following
frame on the same connection is perfectly decodable yet is never processed —
a decode failure is connection-fatal, not per-message. -/
theorem c3_decode_failure_counterexample :
    handle [("*@#*HQ,9170119247,V6,102523,A,5628.0960,N,8502.8648,E,0.00,284.00,291024#").data]
      = ([], SessionEnd.decodeFatal (DecodeErr.indexError 1)) ∧
    split_input (("HQ,9170119247,V6,102523,A,5628.0960,N,8502.8648,E,0.00,284.00,291024").data)
      = Except.ok exampleReport := by
  decide

/-- C3 (amended): a decode failure terminates the session.  `TCPHandler.handle`
catches `BadRequest` only, so the first frame whose validation raises ends
the connection: for any frame sequence sent as one chunk, exactly the
successfully decoded prefix before the first failing frame is processed and
the session ends with that decode exception. -/
theorem c3_decode_failure_fatal (msgs : List (List Char)) (e : DecodeErr)
    (hmem : ∀ m ∈ msgs, '#' ∉ m) (herr : (decodeSeq msgs).2 = some e) :
    handle [wireOf msgs] = ((decodeSeq msgs).1, SessionEnd.decodeFatal e) := by
  have hw := process_buffer_wire msgs 0 hmem
  have hf1 : (feed (wireOf msgs)).1 = msgs := by
    unfold feed process_buffer
    exact hw.1
  show handleGo [wireOf msgs] [] = ((decodeSeq msgs).1, SessionEnd.decodeFatal e)
  rw [handleGo]
  simp only [List.nil_append, hf1, herr]

/-- C3 witness: a failing frame followed by a valid one. -/
theorem c3_decode_failure_fatal_witness :
    (∀ m ∈ [("@").data,
        ("HQ,9170119247,V6,102523,A,5628.0960,N,8502.8648,E,0.00,284.00,291024").data],
      '#' ∉ m) ∧
    (decodeSeq [("@").data,
        ("HQ,9170119247,V6,102523,A,5628.0960,N,8502.8648,E,0.00,284.00,291024").data]).2
      = some (DecodeErr.indexError 1) ∧
    handle [wireOf [("@").data,
        ("HQ,9170119247,V6,102523,A,5628.0960,N,8502.8648,E,0.00,284.00,291024").data]]
      = ([], SessionEnd.decodeFatal (DecodeErr.indexError 1)) :=
  ⟨by decide, by decide,
    (c3_decode_failure_fatal
      [("@").data,
        ("HQ,9170119247,V6,102523,A,5628.0960,N,8502.8648,E,0.00,284.00,291024").data]
      (DecodeErr.indexError 1) (by decide) (by decide)).trans (by decide)⟩

/-- C4 counterexample: the two-field frame `HQ,123` does not yield any tagged
`FieldCountMismatch` outcome (no such outcome exists in the code); it raises
`IndexError` at `parts[5]`, an unhandled exception that terminates the
session. -/
theorem c4_field_count_counterexample :
    handle [("*HQ,123#").data] = ([], SessionEnd.decodeFatal (DecodeErr.indexError 5)) ∧
    (splitComma (("HQ,123").data)).length = 2 := by
  decide

/-- C4 (amended): a frame with fewer than 12 comma-separated fields never
decodes successfully — validation always ends in an exception (an
out-of-range `parts[i]` access or an earlier field-parse failure), which
`TCPHandler.handle` does not catch; there is no `FieldCountMismatch`
outcome. -/
theorem c4_short_frame_errors (s : List Char) (h : (splitComma s).length < 12) :
    ∃ e, split_input s = Except.error e := by
  cases hd : split_input s with
  | error e => exact ⟨e, rfl⟩
  | ok r => exact absurd (split_input_ok_length s r hd) (by omega)

/-- C4 witness at the frame `HQ,123`. -/
theorem c4_short_frame_errors_witness :
    (splitComma (("HQ,123").data)).length < 12 ∧
    ∃ e, split_input (("HQ,123").data) = Except.error e :=
  ⟨by decide, c4_short_frame_errors (("HQ,123").data) (by decide)⟩

/-- C5 counterexample: the example frame decodes, but its latitude is
`round(56 + 28.0960 / 60, 6) = 56.468267`, not the claimed `56.466667`. -/
theorem c5_latitude_counterexample :
    split_input exFrame = Except.ok exampleReport ∧
    exampleReport.latitude ≠ Rat.divInt 56466667 1000000 := by
  decide

/-- C5 (amended): decoding the example frame yields device id `9170119247`,
latitude 56.468267, longitude 85.047747, velocity 0 km/h, and device
timestamp 2024-10-29 10:25:23. -/
theorem c5_example_decode :
    split_input exFrame = Except.ok exampleReport ∧
    exampleReport.device_id = ("9170119247").data ∧
    exampleReport.latitude = Rat.divInt 56468267 1000000 ∧
    exampleReport.longitude = Rat.divInt 85047747 1000000 ∧
    exampleReport.velocity = 0 ∧
    exampleReport.timestamp = ⟨2024, 10, 29, 10, 25, 23⟩ := by
  decide

/-- C6: the record actually published for the example frame (server in UTC,
receipt instant 2024-10-29 11:00:00Z).  It carries `acc = 3`, `conn = "m"`,
`t = "I"` and integer epoch `tst` as claimed, but there is no `_type` key at
all — pydantic silently treats the leading-underscore `_type` declaration as
a private attribute and drops it from the dump — and `created_at` is an
ISO-8601 string, not integer epoch seconds, because the `field_serializer`
covers only `tst`. -/
theorem c6_mqtt_record_shape :
    process_payload exFrame ⟨2024, 10, 29, 11, 0, 0⟩ 0 0 = Except.ok exampleDump ∧
    ("_type").data ∉ exampleDump.map Prod.fst ∧
    ("created_at").data ∈ exampleDump.map Prod.fst := by
  decide

/-- C7: feeding `*first#*second` as one chunk yields exactly the frame
`first` and retains `*second`; feeding `*first#*second#` yields `first` then
`second` and retains nothing (and no error is raised in either case). -/
theorem c7_feed_examples :
    handle_request [("*first#*second").data] =
      ([("first").data], ("*second").data, false) ∧
    handle_request [("*first#*second#").data] =
      ([("first").data, ("second").data], [], false) := by
  decide

/-- C8: the decoder is deterministic — two successful decodes of the same
input agree on every field of the report (device id, latitude, longitude,
velocity, device timestamp); the server receipt time is attached later by
`process_payload`, not by the decoder. -/
theorem c8_decoder_deterministic (s : List Char) (r₁ r₂ : H02Payload)
    (h₁ : split_input s = Except.ok r₁) (h₂ : split_input s = Except.ok r₂) :
    r₁.device_id = r₂.device_id ∧ r₁.latitude = r₂.latitude ∧
    r₁.longitude = r₂.longitude ∧ r₁.velocity = r₂.velocity ∧
    r₁.timestamp = r₂.timestamp := by
  have heq : r₁ = r₂ := by
    have h := h₁.symm.trans h₂
    injection h
  subst heq
  exact ⟨rfl, rfl, rfl, rfl, rfl⟩

/-- C8 witness at the example frame. -/
theorem c8_decoder_deterministic_witness :
    split_input exFrame = Except.ok exampleReport ∧
    (exampleReport.device_id = exampleReport.device_id ∧
      exampleReport.latitude = exampleReport.latitude ∧
      exampleReport.longitude = exampleReport.longitude ∧
      exampleReport.velocity = exampleReport.velocity ∧
      exampleReport.timestamp = exampleReport.timestamp) :=
  ⟨by decide,
    c8_decoder_deterministic exFrame exampleReport exampleReport (by decide) (by decide)⟩

/-- C9: text decoding is per received chunk.  The byte stream `*é#` (with é
encoded as C3 A9) split between the two bytes of é makes the first chunk
invalid UTF-8, so the session raises the bad-request error and stops with no
frame, while the same bytes fed as one chunk decode fine and yield the frame
`é`. -/
theorem c9_per_chunk_text_decoding :
    handle_request_bytes [[42, 195], [169, 35]] = ([], [], some BadReq.encoding) ∧
    utf8Decode ([42, 195] ++ [169, 35]) = some ['*', Char.ofNat 233, '#'] ∧
    handle_request_bytes [[42, 195] ++ [169, 35]] = ([[Char.ofNat 233]], [], none) := by
  decide

/-- C10: after an opening `*`, everything up to the first following `#` is
the frame body verbatim — an interior `*` is part of the body and never
starts a new frame — and the strict leading-byte check next applies exactly
at the position following the consumed `#`. -/
theorem c10_star_in_body (p rest : List Char) (off : Nat) (h : '#' ∉ p) :
    process_buffer_from ('*' :: (p ++ '#' :: rest)) off =
      ((p, off + p.length + 1) :: (process_buffer_from rest (off + p.length + 2)).1,
        (process_buffer_from rest (off + p.length + 2)).2) :=
  process_buffer_from_frame p rest off h

/-- C10 witness: body `a*b` containing a `*`, followed by a second frame. -/
theorem c10_star_in_body_witness :
    ('#' ∉ ("a*b").data) ∧
    process_buffer_from ('*' :: (("a*b").data ++ '#' :: ("*c#").data)) 0 =
      ([(("a*b").data, 4), (("c").data, 7)], false) :=
  ⟨by decide,
    (c10_star_in_body (("a*b").data) (("*c#").data) 0 (by decide)).trans (by decide)⟩

end H02ToMqtt
